import Mathlib

/-!
Shallow embedding of the vim-strand plugin manager (src/src/lib.rs and
src/src/main.rs) and proofs about its specified behaviour.

Paths are modelled the way Rust's `Path::components` decomposes them: a list
of component strings, where an absolute path carries its root "/" as the
first component.  Filesystem, network and YAML (de)serialization effects are
modelled as explicit data (outcome values and a structured document tree).
-/

deriving instance DecidableEq for Except

namespace Strand

/-- A filesystem path as a list of components, mirroring Rust
`Path::components` (a root directory appears as the component "/"). -/
abbrev RPath := List String

/-- Model of `expand_path` from src/src/lib.rs lines 44-63: if the path starts with
the component "~" (Rust `Path::starts_with` compares whole components),
drop that component and put the resolved home directory in its place;
otherwise return the path unchanged. -/
def expand_path (home : RPath) (path : RPath) : RPath :=
  if path.head? = some "~" then home ++ path.tail else path

/-- Model of `get_config_dir` from src/src/lib.rs lines 23-42, macOS branch
(lines 26-30): `$XDG_CONFIG_HOME` when that variable is set, else the home
directory joined with the literal segment "config"; in both cases "strand"
is joined on the end. -/
def get_config_dir_macos (xdg_config_home : Option RPath) (home : RPath) : RPath :=
  (match xdg_config_home with
   | some dir => dir
   | none => home ++ ["config"]) ++ ["strand"]

/-- Model of `GitProvider` from src/src/lib.rs lines 65-69. -/
inductive GitProvider
  | GitHub
  | Bitbucket
deriving DecidableEq

/-- Model of `impl FromStr for GitProvider` from src/src/lib.rs lines 71-84:
the Rust match on the string tries the two literal patterns in order and
falls through to the error arm for everything else. -/
def GitProvider.from_str (s : String) : Except String GitProvider :=
  if s = "github" then .ok .GitHub
  else if s = "bitbucket" then .ok .Bitbucket
  else .error ("Git provider " ++ s ++ " not recognised -- try ‘github’ or ‘bitbucket’ instead")

/-- Model of `GitRepo` from src/src/lib.rs lines 86-103. -/
structure GitRepo where
  provider : GitProvider
  user : String
  repo : String
  git_ref : Option String
deriving DecidableEq

/-- Model of `impl fmt::Display for GitRepo` from src/src/lib.rs lines 105-125. -/
def GitRepo.display (g : GitRepo) : String :=
  let git_ref := match g.git_ref with
    | some git_ref => git_ref
    | none => "master"
  match g.provider with
  | .GitHub =>
      "https://codeload.github.com/" ++ g.user ++ "/" ++ g.repo ++ "/tar.gz/" ++ git_ref
  | .Bitbucket =>
      "https://bitbucket.org/" ++ g.user ++ "/" ++ g.repo ++ "/get/" ++ git_ref ++ ".tar.gz"

/-- Model of `ArchivePlugin` from src/src/lib.rs lines 127-130. -/
structure ArchivePlugin where
  url : String
deriving DecidableEq

/-- Model of `impl fmt::Display for ArchivePlugin` from src/src/lib.rs lines 132-136. -/
def ArchivePlugin.display (a : ArchivePlugin) : String := a.url

/-- Model of `Plugin` from src/src/lib.rs lines 138-148. -/
inductive Plugin
  | Git (g : GitRepo)
  | Archive (a : ArchivePlugin)
deriving DecidableEq

/-- Model of `impl fmt::Display for Plugin` from src/src/lib.rs lines 150-157. -/
def Plugin.display : Plugin → String
  | .Git g => g.display
  | .Archive a => a.display

/-- Outcome of running a piece of code that may terminate the whole process
(`process::exit`) instead of returning: either a normal return value or a
process exit with the given code. -/
inductive TaskResult (α : Type)
  | value (a : α)
  | processExit (code : Nat)
deriving DecidableEq

/-- Model of `Plugin::install_plugin` from src/src/lib.rs lines 159-176, with the
external services as explicit data: `fetch` is the outcome of
`surf::get(url).recv_bytes()` (the response body as bytes, or a network
error), and `extract` is the outcome of `decompress_tar_gz` on those bytes.
On a fetch error the code prints the error and calls `process::exit(1)`;
on a fetch success the extraction result is propagated with `?`. -/
def install_plugin (fetch : Except String (List Nat))
    (extract : List Nat → Except String Unit) : TaskResult (Except String Unit) :=
  match fetch with
  | .error _ => .processExit 1
  | .ok archive =>
      match extract archive with
      | .error e => .value (.error e)
      | .ok () => .value (.ok ())

/-- The await loop of `install_plugins` from src/src/lib.rs lines 205-218:
all tasks are spawned eagerly (the whole list of task outcomes exists before
any is awaited), then awaited in spawn order; `task.await?` propagates the
first error met in that order. -/
def install_plugins {ε : Type} : List (Except ε Unit) → Except ε Unit
  | [] => .ok ()
  | .ok () :: rest => install_plugins rest
  | .error e :: _ => .error e

/-- A filesystem node: a regular file, or a directory with named children. -/
inductive FsNode
  | file
  | dir (entries : List (String × FsNode))

/-- Model of `remove_path` from src/src/main.rs lines 44-52: `fs::metadata` fails
when the path does not exist; otherwise the node (directory subtree or
file) is removed. -/
def remove_path : Option FsNode → Except String (Option FsNode)
  | none => .error "No such file or directory"
  | some _ => .ok none

/-- Model of `fs::create_dir_all`: creates the directory when absent, succeeds
without change on an existing directory, fails on an existing file. -/
def create_dir_all : Option FsNode → Except String (Option FsNode)
  | none => .ok (some (.dir []))
  | some (.dir es) => .ok (some (.dir es))
  | some .file => .error "File exists"

/-- Model of `ensure_empty_dir` from src/src/main.rs lines 54-62: remove the path
when it exists, then `create_dir_all` it. -/
def ensure_empty_dir (s : Option FsNode) : Except String (Option FsNode) := do
  let s ← if s.isSome then remove_path s else pure s
  create_dir_all s

/-- A parsed YAML document, structured the way serde_yaml hands it to the
derived deserializers: strings, nulls, sequences and string-keyed mappings.
A path-valued leaf carries the path it denotes, already in component form. -/
inductive Yaml
  | str (s : String)
  | nullV
  | pathV (p : RPath)
  | seq (items : List Yaml)
  | map (entries : List (String × Yaml))

/-- Serialization of `GitRepo` (derived `Serialize`): a mapping with the
four field names; the `Option` field serializes as null when `None`. -/
def encodeGitRepo (g : GitRepo) : Yaml :=
  .map [("provider", .str (match g.provider with
                           | .GitHub => "GitHub"
                           | .Bitbucket => "Bitbucket")),
        ("user", .str g.user),
        ("repo", .str g.repo),
        ("git_ref", match g.git_ref with
                    | some r => .str r
                    | none => .nullV)]

/-- Serialization of `ArchivePlugin` (derived `Serialize`). -/
def encodeArchivePlugin (a : ArchivePlugin) : Yaml :=
  .map [("url", .str a.url)]

/-- Serialization of `Plugin` (derived `Serialize` with
`#[serde(untagged)]`, src/src/lib.rs line 139): the inner variant is
serialized directly, with no tag. -/
def encodePlugin : Plugin → Yaml
  | .Git g => encodeGitRepo g
  | .Archive a => encodeArchivePlugin a

/-- Model of `Config` from src/src/lib.rs lines 178-182. -/
structure Config where
  plugin_dir : RPath
  plugins : List Plugin
deriving DecidableEq

/-- Serialization of `Config` (derived `Serialize`, src/src/lib.rs
lines 178-182): a mapping with the `plugin_dir` path and the `plugins`
sequence, persisting whatever values the in-memory `Config` holds. -/
def encodeConfig (c : Config) : Yaml :=
  .map [("plugin_dir", .pathV c.plugin_dir),
        ("plugins", .seq (c.plugins.map encodePlugin))]

/-- Deserialize a YAML node as a string. -/
def decodeStr : Yaml → Except String String
  | .str s => .ok s
  | _ => .error "expected a string"

/-- Deserialize a YAML node as a `GitProvider` (derived `Deserialize`:
the variant names verbatim). -/
def decodeProvider : Yaml → Except String GitProvider
  | .str "GitHub" => .ok .GitHub
  | .str "Bitbucket" => .ok .Bitbucket
  | _ => .error "unknown variant of GitProvider"

/-- Deserialization of `GitRepo` (derived `Deserialize`): a mapping with
`provider`, `user` and `repo` required and the `Option` field `git_ref`
defaulting to `None` when absent or null. -/
def decodeGitRepo : Yaml → Except String GitRepo
  | .map es => do
      let provider ← match es.lookup "provider" with
        | some v => decodeProvider v
        | none => .error "missing field provider"
      let user ← match es.lookup "user" with
        | some v => decodeStr v
        | none => .error "missing field user"
      let repo ← match es.lookup "repo" with
        | some v => decodeStr v
        | none => .error "missing field repo"
      let git_ref ← match es.lookup "git_ref" with
        | none => .ok none
        | some .nullV => .ok none
        | some (.str r) => .ok (some r)
        | some _ => .error "invalid type for git_ref"
      .ok { provider := provider, user := user, repo := repo, git_ref := git_ref }
  | _ => .error "expected a map for GitRepo"

/-- Deserialization of `ArchivePlugin` (derived `Deserialize`): a mapping
with a required `url` string. -/
def decodeArchivePlugin : Yaml → Except String ArchivePlugin
  | .map es =>
      (match es.lookup "url" with
       | some v => decodeStr v
       | none => .error "missing field url").map fun url => { url := url }
  | _ => .error "expected a map for ArchivePlugin"

/-- Deserialization of `Plugin` (`#[serde(untagged)]`): the variants are
tried in declaration order, `Git` first, then `Archive`; the shape of the
entry decides the variant. -/
def decodePlugin (y : Yaml) : Except String Plugin :=
  match decodeGitRepo y with
  | .ok g => .ok (.Git g)
  | .error _ =>
      match decodeArchivePlugin y with
      | .ok a => .ok (.Archive a)
      | .error _ => .error "data did not match any variant of untagged enum Plugin"

/-- Deserialization of `Config` (derived `Deserialize`): a mapping with a
`plugin_dir` path and a `plugins` sequence, each element a `Plugin`; list
order is kept as it appears in the file. -/
def decodeConfig : Yaml → Except String Config
  | .map es => do
      let plugin_dir ← match es.lookup "plugin_dir" with
        | some (.pathV p) => .ok p
        | some _ => .error "invalid type for plugin_dir"
        | none => .error "missing field plugin_dir"
      let plugins ← match es.lookup "plugins" with
        | some (.seq items) => items.mapM decodePlugin
        | some _ => .error "invalid type for plugins"
        | none => .error "missing field plugins"
      .ok { plugin_dir := plugin_dir, plugins := plugins }
  | _ => .error "expected a map for Config"

/-- Errors `get_config` can surface: the `?` on `fs::read_to_string`
(an I/O error, including a missing file) or the `?` on `yaml::from_str`
(a parse error). -/
inductive ConfigError
  | ioError (e : String)
  | parseError (e : String)
deriving DecidableEq

/-- Model of `get_config` from src/src/lib.rs lines 184-192: read the file (its
outcome is the `read` argument: the parsed document, or the I/O error),
parse it into a `Config`, then expand a leading home marker in
`plugin_dir`.  Both failures are returned as structured errors. -/
def get_config (home : RPath) (read : Except String Yaml) : Except ConfigError Config :=
  match read with
  | .error e => .error (.ioError e)
  | .ok y =>
      match decodeConfig y with
      | .error e => .error (.parseError e)
      | .ok c => .ok { c with plugin_dir := expand_path home c.plugin_dir }

/-- The append-and-save step of `main` from src/src/main.rs lines 30-35:
load the configuration, push the requested plugin onto `config.plugins`,
and write the serialized in-memory configuration back to disk.  Returns
the document that gets persisted. -/
def main_append (home : RPath) (read : Except String Yaml) (p : Plugin) :
    Except ConfigError Yaml :=
  match get_config home read with
  | .error e => .error e
  | .ok c => .ok (encodeConfig { c with plugins := c.plugins ++ [p] })

/-! Helper lemmas. -/

lemma decodePlugin_encode (p : Plugin) : decodePlugin (encodePlugin p) = .ok p := by
  cases p with
  | Git g =>
      obtain ⟨pv, u, r, ref⟩ := g
      cases pv <;> cases ref <;> rfl
  | Archive a => rfl

lemma ok_bind {ε α β : Type} (a : α) (f : α → Except ε β) :
    ((Except.ok a : Except ε α) >>= f) = f a := rfl

lemma pure_eq_ok {ε α : Type} (a : α) : (pure a : Except ε α) = Except.ok a := rfl

lemma mapM_loop_decode (ps : List Plugin) :
    ∀ acc, List.mapM.loop decodePlugin (ps.map encodePlugin) acc
      = Except.ok (acc.reverse ++ ps) := by
  induction ps with
  | nil => intro acc; simp [List.mapM.loop, pure_eq_ok]
  | cons p t ih => intro acc; simp [List.mapM.loop, decodePlugin_encode, ok_bind, ih]

lemma mapM_decode_encode (ps : List Plugin) :
    (ps.map encodePlugin).mapM decodePlugin = Except.ok ps := by
  simpa using mapM_loop_decode ps []

lemma decodeConfig_encode (c : Config) : decodeConfig (encodeConfig c) = .ok c := by
  obtain ⟨d, ps⟩ := c
  simp [decodeConfig, encodeConfig, List.lookup, mapM_loop_decode, ok_bind]

lemma install_plugins_ok_iff {ε : Type} (outs : List (Except ε Unit)) :
    install_plugins outs = .ok () ↔ ∀ o ∈ outs, o = .ok () := by
  induction outs with
  | nil => simp [install_plugins]
  | cons o t ih =>
      cases o with
      | ok u => cases u; simp [install_plugins, ih]
      | error e => simp [install_plugins]

lemma install_plugins_first_error {ε : Type} (pre : List (Except ε Unit)) (e : ε)
    (rest : List (Except ε Unit)) (h : ∀ o ∈ pre, o = .ok ()) :
    install_plugins (pre ++ .error e :: rest) = .error e := by
  induction pre with
  | nil => rfl
  | cons o t ih =>
      have ho := h o (by simp)
      subst ho
      simpa [install_plugins] using ih (fun o hm => h o (by simp [hm]))

/-! The claims. -/

/-- C1: URL rendering is the pure function that sends a GitHub `GitRepo` to
`https://codeload.github.com/{user}/{repo}/tar.gz/{ref}`, a Bitbucket
`GitRepo` to `https://bitbucket.org/{user}/{repo}/get/{ref}.tar.gz` — with
`{ref}` the spec's `git_ref` when present and `"master"` when absent — and
an `ArchivePlugin` to its `url` string unchanged. -/
theorem c1_url_rendering (user repo url : String) (ref : Option String) :
    (Plugin.Git ⟨.GitHub, user, repo, ref⟩).display
      = "https://codeload.github.com/" ++ user ++ "/" ++ repo ++ "/tar.gz/" ++ ref.getD "master"
    ∧ (Plugin.Git ⟨.Bitbucket, user, repo, ref⟩).display
      = "https://bitbucket.org/" ++ user ++ "/" ++ repo ++ "/get/" ++ ref.getD "master" ++ ".tar.gz"
    ∧ (Plugin.Archive ⟨url⟩).display = url := by
  cases ref <;> exact ⟨rfl, rfl, rfl⟩

/-- C2: `install_plugins` spawns every task before awaiting any (the model
takes the full list of task outcomes, in spawn order) and then awaits them
in that order: the run completes successfully exactly when every task
finished successfully, and when some task fails, the error propagated to
the caller is that of the first failing task in start order — the outcomes
of the tasks after it exist unchanged in the list, i.e. those tasks are not
cancelled by the failure. -/
theorem c2_install_plugins_batch (ε : Type) (outs : List (Except ε Unit)) :
    (install_plugins outs = .ok () ↔ ∀ o ∈ outs, o = .ok ())
    ∧ (∀ pre (e : ε) rest, outs = pre ++ .error e :: rest →
        (∀ o ∈ pre, o = .ok ()) → install_plugins outs = .error e) := by
  refine ⟨install_plugins_ok_iff outs, ?_⟩
  intro pre e rest hsplit hpre
  rw [hsplit]
  exact install_plugins_first_error pre e rest hpre

/-- C2 witness: with three tasks whose outcomes are success, error 2 and
error 3 in spawn order, the batch propagates error 2. -/
theorem c2_install_plugins_batch_witness :
    install_plugins [Except.ok (), Except.error 2, Except.error (3 : Nat)]
      = Except.error 2 :=
  (c2_install_plugins_batch Nat _).2 [Except.ok ()] 2 [Except.error 3] rfl
    (by intro o hm; simpa using hm)

/-- C3: `expand_path` replaces a leading "~" component by the resolved home
directory, keeping all subsequent components unchanged, and is the identity
on every path whose first component is not exactly "~" (so a path like
"~foo", whose single component differs from "~", is untouched: the test is
on components, not string prefixes). -/
theorem c3_expand_path_components (home path : RPath) :
    (path.head? = some "~" → expand_path home path = home ++ path.tail)
    ∧ (path.head? ≠ some "~" → expand_path home path = path) := by
  constructor <;> intro h <;> simp [expand_path, h]

/-- C3 witness: "~/foo" (components ["~", "foo"]) expands under home
"/home/u", while "~foo" (single component "~foo") is returned unchanged. -/
theorem c3_expand_path_components_witness :
    expand_path ["/", "home", "u"] ["~", "foo"] = ["/", "home", "u", "foo"]
    ∧ expand_path ["/", "home", "u"] ["~foo"] = ["~foo"] :=
  ⟨(c3_expand_path_components ["/", "home", "u"] ["~", "foo"]).1 (by decide),
   (c3_expand_path_components ["/", "home", "u"] ["~foo"]).2 (by decide)⟩

/-- C4: from every prior state of the path — absent, a file, or a directory
with arbitrary contents — `ensure_empty_dir` succeeds and leaves the path
an existing empty directory; calling it again on that result leaves the
directory present and empty as well (idempotence). -/
theorem c4_ensure_empty_dir (s : Option FsNode) :
    ensure_empty_dir s = .ok (some (.dir []))
    ∧ ensure_empty_dir (some (.dir [])) = .ok (some (.dir [])) := by
  refine ⟨?_, rfl⟩
  cases s with
  | none => rfl
  | some n => cases n <;> rfl

/-- C5: loading a configuration, appending one plugin spec, saving the
in-memory configuration, then reloading yields a plugin list equal to the
original list with the appended entry at the end — order preserved, nothing
reordered or deduplicated. -/
theorem c5_append_roundtrip (home : RPath) (read : Except String Yaml)
    (c : Config) (p : Plugin) (h : get_config home read = .ok c) :
    ∃ c2 : Config,
      get_config home (.ok (encodeConfig { c with plugins := c.plugins ++ [p] })) = .ok c2
      ∧ c2.plugins = c.plugins ++ [p] := by
  refine ⟨{ plugin_dir := expand_path home c.plugin_dir, plugins := c.plugins ++ [p] }, ?_, rfl⟩
  simp [get_config, decodeConfig_encode]

/-- C5 witness: a configuration with one Git plugin, loaded, with one
archive plugin appended, saved and reloaded, yields both plugins in order. -/
theorem c5_append_roundtrip_witness :
    get_config ["/", "home", "u"]
        (.ok (encodeConfig
          { plugin_dir := ["/", "pl"],
            plugins := [.Git ⟨.GitHub, "acme", "tools", none⟩] }))
      = .ok { plugin_dir := ["/", "pl"],
              plugins := [.Git ⟨.GitHub, "acme", "tools", none⟩] }
    ∧ ∃ c2 : Config,
        get_config ["/", "home", "u"]
            (.ok (encodeConfig
              { plugin_dir := ["/", "pl"],
                plugins := [.Git ⟨.GitHub, "acme", "tools", none⟩]
                  ++ [.Archive ⟨"https://host/x.tar.gz"⟩] }))
          = .ok c2
        ∧ c2.plugins = [.Git ⟨.GitHub, "acme", "tools", none⟩]
            ++ [.Archive ⟨"https://host/x.tar.gz"⟩] :=
  ⟨by decide,
   c5_append_roundtrip ["/", "home", "u"]
     (.ok (encodeConfig
       { plugin_dir := ["/", "pl"],
         plugins := [.Git ⟨.GitHub, "acme", "tools", none⟩] }))
     { plugin_dir := ["/", "pl"], plugins := [.Git ⟨.GitHub, "acme", "tools", none⟩] }
     (.Archive ⟨"https://host/x.tar.gz"⟩) (by decide)⟩

/-- C6: whenever the network fetch of a plugin fails, `install_plugin`
terminates the whole process with exit code 1 (a `processExit` outcome)
instead of returning an error value to the orchestrator, whatever the
extraction step would have done. -/
theorem c6_fetch_failure_exits (fetch : Except String (List Nat))
    (extract : List Nat → Except String Unit) (e : String)
    (h : fetch = .error e) :
    install_plugin fetch extract = .processExit 1 := by
  subst h; rfl

/-- C6 witness: a failed fetch with any extraction behaviour exits with
code 1. -/
theorem c6_fetch_failure_exits_witness :
    install_plugin (.error "connection refused") (fun _ => .ok ()) = .processExit 1 :=
  c6_fetch_failure_exits (.error "connection refused") (fun _ => .ok ())
    "connection refused" rfl

/-- C7: `get_config` turns a failed file read into a structured I/O-class
error, a file that does not decode into a structured parse error, and a
successful parse into the parsed configuration with the home marker in
`plugin_dir` expanded — never terminating the process. -/
theorem c7_get_config_errors (home : RPath) :
    (∀ e, get_config home (.error e) = .error (.ioError e))
    ∧ (∀ y e, decodeConfig y = .error e →
        get_config home (.ok y) = .error (.parseError e))
    ∧ (∀ y c, decodeConfig y = .ok c →
        get_config home (.ok y)
          = .ok { c with plugin_dir := expand_path home c.plugin_dir }) := by
  refine ⟨fun e => rfl, ?_, ?_⟩ <;> intro y c h <;> simp [get_config, h]

/-- C7 witness: a missing file surfaces as an I/O error, a scalar document
surfaces as a parse error, and a well-formed document loads with its
`plugin_dir` expanded. -/
theorem c7_get_config_errors_witness :
    get_config ["/", "home", "u"] (.error "No such file or directory")
      = .error (.ioError "No such file or directory")
    ∧ (decodeConfig (.str "oops") = .error "expected a map for Config"
       ∧ get_config ["/", "home", "u"] (.ok (.str "oops"))
           = .error (.parseError "expected a map for Config"))
    ∧ (decodeConfig (encodeConfig { plugin_dir := ["~", "pl"], plugins := [] })
         = .ok { plugin_dir := ["~", "pl"], plugins := [] }
       ∧ get_config ["/", "home", "u"]
           (.ok (encodeConfig { plugin_dir := ["~", "pl"], plugins := [] }))
         = .ok { plugin_dir := ["/", "home", "u", "pl"], plugins := [] }) :=
  ⟨(c7_get_config_errors ["/", "home", "u"]).1 "No such file or directory",
   ⟨by decide,
    (c7_get_config_errors ["/", "home", "u"]).2.1 (.str "oops")
      "expected a map for Config" (by decide)⟩,
   ⟨by decide, by
    have h := (c7_get_config_errors ["/", "home", "u"]).2.2
      (encodeConfig { plugin_dir := ["~", "pl"], plugins := [] })
      { plugin_dir := ["~", "pl"], plugins := [] } (by decide)
    simpa [expand_path] using h⟩⟩

/-- C8: `plugin_dir` is expanded on every load, and loading alone writes
nothing; but the save triggered by an append persists the in-memory value,
i.e. the expanded absolute path: for a stored configuration whose
`plugin_dir` starts with the "~" marker, the document persisted by the
append-and-save cycle holds `plugin_dir` equal to the home directory
followed by the remaining components, which no longer starts with "~" —
the shorthand is lost. -/
theorem c8_shorthand_lost (home : RPath) (y : Yaml) (c0 : Config) (p : Plugin)
    (h1 : decodeConfig y = .ok c0)
    (h2 : c0.plugin_dir.head? = some "~")
    (h3 : home ≠ [])
    (h4 : home.head? ≠ some "~") :
    ∃ persisted : Yaml, ∃ c1 : Config,
      main_append home (.ok y) p = .ok persisted
      ∧ decodeConfig persisted = .ok c1
      ∧ c1.plugin_dir = home ++ c0.plugin_dir.tail
      ∧ c1.plugin_dir.head? ≠ some "~" := by
  refine ⟨encodeConfig { plugin_dir := home ++ c0.plugin_dir.tail,
                         plugins := c0.plugins ++ [p] },
          { plugin_dir := home ++ c0.plugin_dir.tail, plugins := c0.plugins ++ [p] },
          ?_, decodeConfig_encode _, rfl, ?_⟩
  · simp [main_append, get_config, h1, expand_path, h2]
  · cases home with
    | nil => exact absurd rfl h3
    | cons a t => simpa using h4

/-- C8 witness: a stored `plugin_dir` of ["~", "pl"] is persisted as
["/", "home", "u", "pl"] after the append-and-save cycle. -/
theorem c8_shorthand_lost_witness :
    decodeConfig (encodeConfig { plugin_dir := ["~", "pl"], plugins := [] })
      = .ok { plugin_dir := ["~", "pl"], plugins := [] }
    ∧ ∃ persisted : Yaml, ∃ c1 : Config,
        main_append ["/", "home", "u"]
            (.ok (encodeConfig { plugin_dir := ["~", "pl"], plugins := [] }))
            (.Archive ⟨"https://host/x.tar.gz"⟩)
          = .ok persisted
        ∧ decodeConfig persisted = .ok c1
        ∧ c1.plugin_dir = ["/", "home", "u"] ++ (["~", "pl"] : RPath).tail
        ∧ c1.plugin_dir.head? ≠ some "~" :=
  ⟨by decide,
   c8_shorthand_lost ["/", "home", "u"]
     (encodeConfig { plugin_dir := ["~", "pl"], plugins := [] })
     { plugin_dir := ["~", "pl"], plugins := [] }
     (.Archive ⟨"https://host/x.tar.gz"⟩)
     (by decide) (by decide) (by decide) (by decide)⟩

/-- C9: on macOS, `get_config_dir` returns `$XDG_CONFIG_HOME/strand` when
the variable is set, and `<home>/config/strand` — with the literal segment
"config", not ".config" or "Library/Application Support" — when it is
unset. -/
theorem c9_config_dir_macos (xdg home : RPath) :
    get_config_dir_macos (some xdg) home = xdg ++ ["strand"]
    ∧ get_config_dir_macos none home = home ++ ["config", "strand"] :=
  ⟨rfl, by simp [get_config_dir_macos]⟩

/-- C10: parsing a provider string accepts exactly "github" and
"bitbucket" (lowercase), mapping them to the two providers, and every other
string — including "GitHub" — is rejected with an error. -/
theorem c10_provider_from_str :
    GitProvider.from_str "github" = .ok .GitHub
    ∧ GitProvider.from_str "bitbucket" = .ok .Bitbucket
    ∧ ∀ s, s ≠ "github" → s ≠ "bitbucket" →
        GitProvider.from_str s
          = .error ("Git provider " ++ s
              ++ " not recognised -- try ‘github’ or ‘bitbucket’ instead") := by
  refine ⟨by simp [GitProvider.from_str], by simp [GitProvider.from_str], ?_⟩
  intro s h1 h2
  simp [GitProvider.from_str, h1, h2]

/-- C10 witness: the differently-cased "GitHub" is rejected. -/
theorem c10_provider_from_str_witness :
    ("GitHub" : String) ≠ "github"
    ∧ GitProvider.from_str "GitHub"
        = .error ("Git provider GitHub not recognised -- try ‘github’ or ‘bitbucket’ instead") :=
  ⟨by decide, c10_provider_from_str.2.2 "GitHub" (by decide) (by decide)⟩

end Strand
